import Mathlib

/-!
Verification of the fomosniperLFG position-lifecycle and execution engine.

The repository's sell loop exists in two variants: an earlier one in
`src/processes/sell.ts` and a refined one concatenated into `src/positions.ts`.
Both are embedded below where they differ.  JS `bigint` arithmetic divides
truncating toward zero; nonnegative quantities (uint256 balances, quotes,
basis-point configuration) are modelled as `Nat`, signed intermediate results
(net proceeds after gas, P&L) as `Int` with `Int.tdiv`.
-/

namespace FomoSniper

/-- Basis-point P&L of a position, `((netKasWei - totalCostWei) * 10000n) / denom` with
`denom = totalCostWei === 0n ? 1n : totalCostWei`, from step 5 of both sell loops
(`src/positions.ts` lines 195-196, `src/processes/sell.ts` lines 133-134).
JS bigint division truncates toward zero, hence `Int.tdiv`. -/
def pnlBps (net : Int) (cost : Nat) : Int :=
  Int.tdiv ((net - (cost : Int)) * 10000) (if cost = 0 then 1 else (cost : Int))

/-- Take-profit net-proceeds threshold `needWei` of the refined sell loop
(`src/positions.ts` line 201): `totalCostWei * (10000 + takeProfitBps) / 10000`
plus the optional fixed profit floor `MIN_PROFIT_WEI`. -/
def tpThreshold (cost tp floorWei : Nat) : Nat :=
  cost * (10000 + tp) / 10000 + floorWei

/-- The `Cfg` record passed to `startSellLoop` (identical shape in both variants). -/
structure SellCfg where
  slippageBps : Nat
  takeProfitBps : Nat
  hardStopBps : Nat
  minHoldBlocks : Nat
deriving DecidableEq

/-- Decision gate of the refined sell loop (`src/positions.ts` lines 198-213):
`useSL = hardStopBps > 0`, take-profit when `netKasWei >= needWei`, stop-loss only
when `useSL` and `pnlBps <= -hardStopBps`; if neither fires the block is skipped,
and a second guard skips any negative-P&L sell while stop-loss is off.
Returns `true` exactly when the loop proceeds toward a sell. -/
def sellDecision (cfg : SellCfg) (minProfitWei : Nat) (cost : Nat) (net : Int) : Bool :=
  let useSL := 0 < cfg.hardStopBps
  let needWei := tpThreshold cost cfg.takeProfitBps minProfitWei
  let p := pnlBps net cost
  let shouldTP := (needWei : Int) ≤ net
  let shouldSL := useSL ∧ p ≤ -(cfg.hardStopBps : Int)
  if ¬shouldTP ∧ ¬shouldSL then false
  else if ¬useSL ∧ p < 0 then false
  else true

/-- Decision gate of the earlier sell loop (`src/processes/sell.ts` lines 136-138):
`shouldTP = pnlBps >= takeProfitBps`, `shouldSL = pnlBps <= -hardStopBps`, proceed when
either holds.  There is no `useSL` flag and no negative-P&L guard in this variant. -/
def sellDecisionV0 (cfg : SellCfg) (cost : Nat) (net : Int) : Bool :=
  let p := pnlBps net cost
  if (cfg.takeProfitBps : Int) ≤ p ∨ p ≤ -(cfg.hardStopBps : Int) then true else false

/-- Slippage-adjusted minimum output `quote * (10000 - slippageBps) / 10000` in JS bigint
(signed, truncating toward zero) arithmetic; used for the sell `minOut`
(`src/positions.ts` line 234, `src/processes/sell.ts` line 147) and, with the buy
estimation as the quote, for the buy `minOut` in the discovery watcher. -/
def computeMinOut (quote slippage : Int) : Int :=
  Int.tdiv (quote * (10000 - slippage)) 10000

/-- A position record of `src/positions.ts`: token and curve addresses, cumulative cost
basis in wei (including buy gas), and the block the position was first opened at. -/
structure Position where
  token : String
  curve : String
  totalCostWei : Nat
  firstSeenBlock : Nat
deriving DecidableEq

/-- Lower-cased map key (`keyOf` / `token.toLowerCase()` in `src/positions.ts`):
addresses are compared case-insensitively. -/
def keyOf (s : String) : List Char := s.data.map Char.toLower

/-- The module-level `Map<string, Position>` of `src/positions.ts`. -/
def Ledger := List Char → Option Position

/-- The ledger at process start: empty, rebuilt by discovery/backfill. -/
def emptyLedger : Ledger := fun _ => none

/-- `map.set(k, v)` on the position map. -/
def mapSet (m : Ledger) (k : List Char) (v : Position) : Ledger :=
  fun k' => if k' = k then some v else m k'

/-- Arguments of one `onBuy` call on a fixed token: curve address, cost delta, block height. -/
structure BuyCall where
  curve : String
  costWei : Nat
  blockNumber : Nat
deriving DecidableEq

/-- Refined `onBuy` (`src/positions.ts` lines 68-84): accumulate cost, keep the earliest
`firstSeenBlock` via an explicit comparison, and overwrite `curve` (venue migration);
create the position on first call. -/
def onBuy (m : Ledger) (token curve : String) (costWei blockNumber : Nat) : Ledger :=
  let k := keyOf token
  match m k with
  | some existing =>
      let e1 : Position := { existing with totalCostWei := existing.totalCostWei + costWei }
      let e2 : Position :=
        if blockNumber < e1.firstSeenBlock then { e1 with firstSeenBlock := blockNumber } else e1
      mapSet m k { e2 with curve := curve }
  | none =>
      mapSet m k
        { token := token, curve := curve, totalCostWei := costWei, firstSeenBlock := blockNumber }

/-- Earlier `onBuy` (`src/positions.ts` lines 17-25): accumulate cost only; the stored
`firstSeenBlock` and `curve` of an existing position are left untouched. -/
def onBuyV0 (m : Ledger) (token curve : String) (costWei blockNumber : Nat) : Ledger :=
  let k := keyOf token
  match m k with
  | some existing => mapSet m k { existing with totalCostWei := existing.totalCostWei + costWei }
  | none =>
      mapSet m k
        { token := token, curve := curve, totalCostWei := costWei, firstSeenBlock := blockNumber }

/-- A sequence of refined `onBuy` calls on one token, starting from the empty ledger. -/
def runBuys (token : String) (calls : List BuyCall) : Ledger :=
  calls.foldl (fun m c => onBuy m token c.curve c.costWei c.blockNumber) emptyLedger

/-- A sequence of earlier-variant `onBuy` calls on one token, from the empty ledger. -/
def runBuysV0 (token : String) (calls : List BuyCall) : Ledger :=
  calls.foldl (fun m c => onBuyV0 m token c.curve c.costWei c.blockNumber) emptyLedger

/-- The per-asset in-flight guard (`inFlight : Set<string>` in both sell loops).
`tryAcquire` is the atomic check-then-add: it succeeds exactly when the key is absent. -/
def tryAcquire (k : List Char) (g : List (List Char)) : Bool × List (List Char) :=
  if k ∈ g then (false, g) else (true, k :: g)

/-- `inFlight.delete(key)`: releasing a key removes it from the guard set. -/
def releaseKey (k : List Char) (g : List (List Char)) : List (List Char) := g.erase k

/-- An operation requested of the concurrency guard. -/
inductive GuardOp
  | tryAcq (k : List Char)
  | rel (k : List Char)
deriving DecidableEq

/-- Run a sequence of guard operations against a guard state. -/
def runOps (g : List (List Char)) : List GuardOp → List (List Char)
  | [] => g
  | GuardOp.tryAcq k :: rest => runOps (tryAcquire k g).2 rest
  | GuardOp.rel k :: rest => runOps (releaseKey k g) rest

/-- Observable events of one sell-loop iteration for a single position: ERC-20 approvals,
receipt waits, guard acquisition/release, ledger removal, and the sell send itself. -/
inductive SellEv
  | approveEv (amount : Nat)
  | waitRcpt
  | acquire
  | removePos
  | sendSell (amount : Nat) (minOut : Int)
  | release
deriving DecidableEq

/-- Error classification used by the sell loop's `catch` (substring matching on the message):
an allowance race, a balance change ("transfer amount exceeds balance"), or anything else. -/
inductive ErrKind
  | allowanceRace
  | balanceChanged
  | otherErr
deriving DecidableEq

/-- Oracle for every external call one iteration of the refined sell loop can make.
`Except ErrKind` models a call that can throw to the outer `catch`; `Option` models calls
whose failure is absorbed locally (inner `try`/`??` fallbacks). -/
structure SellEnv where
  inFlightHas : Bool
  bal : Except ErrKind Nat
  quote1 : Option Nat
  simGas : Option Nat
  feeEst : Option Nat
  gasPrice : Except ErrKind Nat
  allowanceRead : Except ErrKind Nat
  approve0Send : Except ErrKind Unit
  approve0Wait : Except ErrKind Unit
  approveMaxSend : Except ErrKind Unit
  approveMaxWait : Except ErrKind Unit
  bal2 : Except ErrKind Nat
  quote2 : Except ErrKind Nat
  sim2 : Except ErrKind Unit
  sendTx : Except ErrKind Unit
  sellWait : Except ErrKind Bool

/-- The maximal approval sentinel `(1n << 256n) - 1n`. -/
def MAX_UINT256 : Nat := 2 ^ 256 - 1

/-- Trace semantics of `ensureAllowance` (identical in `src/processes/sell.ts` lines 19-58
and the `src/positions.ts` copy): read the current allowance; if it covers `required`,
return with no transaction; otherwise, when non-zero, send `approve(spender, 0)` and await
its receipt first, then send `approve(spender, MAX_UINT256)` and await its receipt.
Returns the emitted events and the thrown error, if any. -/
def ensureAllowanceT (e : SellEnv) (required : Nat) : List SellEv × Option ErrKind :=
  match e.allowanceRead with
  | .error k => ([], some k)
  | .ok current =>
    if required ≤ current then ([], none)
    else
      match (if 0 < current then
               (match e.approve0Send with
                | .error k => (([] : List SellEv), some k)
                | .ok _ =>
                  match e.approve0Wait with
                  | .error k => ([SellEv.approveEv 0], some k)
                  | .ok _ => ([SellEv.approveEv 0, SellEv.waitRcpt], none))
             else ([], none)) with
      | (evs, some k) => (evs, some k)
      | (evs, none) =>
        match e.approveMaxSend with
        | .error k => (evs, some k)
        | .ok _ =>
          match e.approveMaxWait with
          | .error k => (evs ++ [SellEv.approveEv MAX_UINT256], some k)
          | .ok _ => (evs ++ [SellEv.approveEv MAX_UINT256, SellEv.waitRcpt], none)

/-- One iteration of the refined sell loop's `try` block for a single position
(`src/positions.ts` lines 154-251): balance read (zero removes the position), min-hold
gate, gross quote (inner try, skip on failure or zero), gas estimate with 120000 fallback,
fee estimate with `getGasPrice` fallback, the decision gate, then guard acquisition,
allowance, the zero-balance re-read, the re-quote, `minOut`, simulate, send, and the
receipt-gated removal.  Returns the emitted events plus the error escaping to `catch`. -/
def sellTryBody (cfg : SellCfg) (minProfitWei : Nat) (pos : Position) (blockNumber : Nat)
    (e : SellEnv) : List SellEv × Option ErrKind :=
  match e.bal with
  | .error k => ([], some k)
  | .ok bal =>
    if bal = 0 then ([SellEv.removePos], none)
    else if (blockNumber : Int) - (pos.firstSeenBlock : Int) < (cfg.minHoldBlocks : Int) then
      ([], none)
    else
      match e.quote1 with
      | none => ([], none)
      | some kasOut =>
        if kasOut = 0 then ([], none)
        else
          match (match e.feeEst with | some f => Except.ok f | none => e.gasPrice) with
          | .error k => ([], some k)
          | .ok maxFeePerGas =>
            let estGas := e.simGas.getD 120000
            let sellGasWei := estGas * maxFeePerGas
            let netKasWei : Int := (kasOut : Int) - (sellGasWei : Int)
            if sellDecision cfg minProfitWei pos.totalCostWei netKasWei then
              match ensureAllowanceT e bal with
              | (evs, some k) => (SellEv.acquire :: evs, some k)
              | (evs, none) =>
                match e.bal2 with
                | .error k => (SellEv.acquire :: evs, some k)
                | .ok bal2 =>
                  if bal2 = 0 then
                    (SellEv.acquire :: (evs ++ [SellEv.removePos, SellEv.release]), none)
                  else
                    match e.quote2 with
                    | .error k => (SellEv.acquire :: evs, some k)
                    | .ok kasOut2 =>
                      if kasOut2 = 0 then
                        (SellEv.acquire :: (evs ++ [SellEv.release]), none)
                      else
                        let minOut := computeMinOut (kasOut2 : Int) (cfg.slippageBps : Int)
                        match e.sim2 with
                        | .error k => (SellEv.acquire :: evs, some k)
                        | .ok _ =>
                          match e.sendTx with
                          | .error k => (SellEv.acquire :: evs, some k)
                          | .ok _ =>
                            match e.sellWait with
                            | .error k =>
                                (SellEv.acquire :: (evs ++ [SellEv.sendSell bal2 minOut]), some k)
                            | .ok ok =>
                                (SellEv.acquire ::
                                  (evs ++ [SellEv.sendSell bal2 minOut, SellEv.waitRcpt] ++
                                    (if ok then [SellEv.removePos] else [])), none)
            else ([], none)

/-- The `catch` handler (`src/positions.ts` lines 252-261): an allowance race is only
logged, "transfer amount exceeds balance" clears the position, anything else is logged. -/
def sellCatchEvents : ErrKind → List SellEv
  | .allowanceRace => []
  | .balanceChanged => [SellEv.removePos]
  | .otherErr => []

/-- Full per-position iteration: the top `inFlight.has(key)` skip, then the `try` body,
the `catch` handler when an error escaped, and the `finally` that deletes the key
(guard release) on every exit path. -/
def sellIterTrace (cfg : SellCfg) (minProfitWei : Nat) (pos : Position) (blockNumber : Nat)
    (e : SellEnv) : List SellEv :=
  if e.inFlightHas then []
  else
    match sellTryBody cfg minProfitWei pos blockNumber e with
    | (evs, none) => evs ++ [SellEv.release]
    | (evs, some k) => evs ++ sellCatchEvents k ++ [SellEv.release]

/-- A pending transaction request of the graduation bot: nonce (as carried on the simulated
request, possibly absent) and the two EIP-1559 fee components. -/
structure TxReq where
  nonce : Option Nat
  maxPriorityFeePerGas : Nat
  maxFeePerGas : Nat
deriving DecidableEq

/-- `bump(x) = x + x * TIP_BPS / 10000` from `graduate` in `src/gradbot.ts`. -/
def feeBump (tipBps x : Nat) : Nat := x + x * tipBps / 10000

/-- One timeout-triggered replacement (`src/gradbot.ts` lines 112-116): bump both fee
components and re-send with the same nonce (`nonce: req.nonce`). -/
def replaceReq (tipBps : Nat) (r : TxReq) : TxReq :=
  { nonce := r.nonce
    maxPriorityFeePerGas := feeBump tipBps r.maxPriorityFeePerGas
    maxFeePerGas := feeBump tipBps r.maxFeePerGas }

/-- The initial request of one graduation intent (`src/gradbot.ts` lines 88-101): the fee
quote is bumped once before the first send; the nonce is whatever the simulated request
carries. -/
def gradInit (tipBps : Nat) (nonce0 : Option Nat) (mp0 mf0 : Nat) : TxReq :=
  { nonce := nonce0
    maxPriorityFeePerGas := feeBump tipBps mp0
    maxFeePerGas := feeBump tipBps mf0 }

/-- The request used on the (n+1)-st send of one graduation intent (after n replacements). -/
def gradAttempt (tipBps : Nat) (init : TxReq) : Nat → TxReq
  | 0 => init
  | n + 1 => replaceReq tipBps (gradAttempt tipBps init n)

/-- `canGraduate` (`src/gradbot.ts` lines 75-85): probe the `isGraduatable` flag; a `true`
result returns eligible with progress 10000 immediately.  A `false` result falls out of the
first `try` (no early return) and, like a throwing probe (`none`), consults `progressBps`:
eligible iff progress is at least 10000; if that read also fails, ineligible with progress 0. -/
def canGraduate (isGrad : Option Bool) (progress : Option Nat) : Bool × Nat :=
  match isGrad with
  | some true => (true, 10000)
  | _ =>
    match progress with
    | some bps => (decide (10000 ≤ bps), bps)
    | none => (false, 0)

/-- Sample configuration used by concrete witnesses: 3% slippage, +20% take profit,
stop-loss disabled, no min hold. -/
def cfgSample : SellCfg := ⟨300, 2000, 0, 0⟩

/-- Sample position used by concrete witnesses. -/
def posSample : Position := { token := "t", curve := "c", totalCostWei := 100, firstSeenBlock := 0 }

/-- Sample environment in which every external call succeeds and the decision gate fires
(net proceeds 200 against cost basis 100). -/
def envSample : SellEnv :=
  { inFlightHas := false
    bal := .ok 10
    quote1 := some 200
    simGas := some 0
    feeEst := some 0
    gasPrice := .ok 0
    allowanceRead := .ok 1000
    approve0Send := .ok ()
    approve0Wait := .ok ()
    approveMaxSend := .ok ()
    approveMaxWait := .ok ()
    bal2 := .ok 10
    quote2 := .ok 200
    sim2 := .ok ()
    sendTx := .ok ()
    sellWait := .ok true }

/-- Variant of `envSample` whose pre-send balance re-read returns zero. -/
def envSampleZero : SellEnv := { envSample with bal2 := .ok 0 }

/-- Variant of `envSample` whose current allowance (50) is non-zero but insufficient. -/
def envSampleAllow : SellEnv := { envSample with allowanceRead := .ok 50 }

end FomoSniper

namespace FomoSniper

theorem cost_le_tpThreshold (cost tp floorWei : Nat) : cost ≤ tpThreshold cost tp floorWei := by
  unfold tpThreshold
  have h1 : cost * 10000 ≤ cost * (10000 + tp) := Nat.mul_le_mul_left _ (by omega)
  calc cost = cost * 10000 / 10000 := (Nat.mul_div_cancel _ (by norm_num)).symm
    _ ≤ cost * (10000 + tp) / 10000 := Nat.div_le_div_right h1
    _ ≤ cost * (10000 + tp) / 10000 + floorWei := Nat.le_add_right _ _

theorem pnlBps_nonneg (net : Int) (cost : Nat) (h : (cost : Int) ≤ net) :
    0 ≤ pnlBps net cost := by
  unfold pnlBps
  apply Int.tdiv_nonneg
  · have : (0 : Int) ≤ net - cost := by omega
    positivity
  · split <;> positivity

/-- C1: with `hardStopBps == 0`, the earlier sell loop's gate
(`src/processes/sell.ts` line 137, `shouldSL = pnlBps <= -cfg.hardStopBps`) still proceeds
to sell at a P&L of -4000 bps (cost basis 100, net proceeds 60), sending a negative-P&L
exit, while the refined gate in `src/positions.ts` (and the file's own comment
`hardStopBps: 0 = disabled`) blocks it.  This evaluates the code at the failing input. -/
theorem c1_stop_loss_fires_when_disabled :
    sellDecisionV0 ⟨300, 6000, 0, 3⟩ 100 60 = true ∧
    pnlBps 60 100 = -4000 ∧
    sellDecision ⟨300, 6000, 0, 3⟩ 0 100 60 = false := by
  refine ⟨by decide, by decide, by decide⟩

/-- C4: in the refined sell loop with stop-loss disabled, the decision proceeds exactly when
net proceeds meet `costBasis * (10000 + takeProfitBps) / 10000` plus the fixed profit floor;
in particular with cost basis 100 and `takeProfitBps = 2000` (floor 0), net 125 triggers and
net 119 does not. -/
theorem c4_take_profit_iff_threshold :
    (∀ (slip mh tp floorWei cost : Nat) (net : Int),
        sellDecision ⟨slip, tp, 0, mh⟩ floorWei cost net = true ↔
          (tpThreshold cost tp floorWei : Int) ≤ net) ∧
    sellDecision ⟨300, 2000, 0, 3⟩ 0 100 125 = true ∧
    sellDecision ⟨300, 2000, 0, 3⟩ 0 100 119 = false := by
  refine ⟨?_, by decide, by decide⟩
  intro slip mh tp floorWei cost net
  by_cases hTP : (tpThreshold cost tp floorWei : Int) ≤ net
  · have hcost : (cost : Int) ≤ net := by
      refine le_trans ?_ hTP
      exact_mod_cast cost_le_tpThreshold cost tp floorWei
    have hp : 0 ≤ pnlBps net cost := pnlBps_nonneg net cost hcost
    simp [sellDecision, hTP, not_lt.mpr hp]
  · simp [sellDecision, hTP]

/-- C4 witness: the threshold criterion applied at cost 100, `takeProfitBps` 2000, net 125. -/
theorem c4_take_profit_iff_threshold_witness :
    sellDecision ⟨300, 2000, 0, 3⟩ 0 100 125 = true :=
  (c4_take_profit_iff_threshold.1 300 3 2000 0 100 125).mpr (by decide)

/-- C5 counterexample: the take-profit threshold is not strictly increasing in
`takeProfitBps`; with cost basis 100 and floor 0, `takeProfitBps` 2000 and 2001 both
require net proceeds of exactly 120 (truncating division). -/
theorem c5_threshold_not_strict :
    (2000 : Nat) < 2001 ∧ tpThreshold 100 2000 0 = 120 ∧ tpThreshold 100 2001 0 = 120 := by
  refine ⟨by norm_num, by decide, by decide⟩

/-- C5 amended: for fixed cost basis the required net proceeds are monotonically
non-decreasing in `takeProfitBps`, and strictly increasing as soon as
`costBasis * (takeProfitBps2 - takeProfitBps1) >= 10000` (the truncating division
absorbs smaller increments). -/
theorem c5_threshold_monotone :
    (∀ cost floorWei tp₁ tp₂ : Nat, tp₁ ≤ tp₂ →
        tpThreshold cost tp₁ floorWei ≤ tpThreshold cost tp₂ floorWei) ∧
    (∀ cost floorWei tp₁ tp₂ : Nat, 10000 ≤ cost * (tp₂ - tp₁) →
        tpThreshold cost tp₁ floorWei < tpThreshold cost tp₂ floorWei) := by
  constructor
  · intro cost floorWei tp₁ tp₂ h
    unfold tpThreshold
    have : cost * (10000 + tp₁) ≤ cost * (10000 + tp₂) := Nat.mul_le_mul_left _ (by omega)
    exact Nat.add_le_add_right (Nat.div_le_div_right this) _
  · intro cost floorWei tp₁ tp₂ h
    unfold tpThreshold
    have hle : tp₁ ≤ tp₂ := by
      by_contra hcon
      have : tp₂ - tp₁ = 0 := by omega
      rw [this] at h
      omega
    have hsplit : 10000 + tp₂ = 10000 + tp₁ + (tp₂ - tp₁) := by omega
    have hexp : cost * (10000 + tp₁ + (tp₂ - tp₁)) =
        cost * (10000 + tp₁) + cost * (tp₂ - tp₁) := Nat.mul_add cost (10000 + tp₁) (tp₂ - tp₁)
    have hbig : cost * (10000 + tp₁) + 10000 ≤ cost * (10000 + tp₂) := by
      rw [hsplit, hexp]
      omega
    have hstep : (cost * (10000 + tp₁) + 10000) / 10000 ≤ cost * (10000 + tp₂) / 10000 :=
      Nat.div_le_div_right hbig
    rw [Nat.add_div_right _ (by norm_num)] at hstep
    omega

/-- C5 witness: at cost 100 the thresholds for `takeProfitBps` 2000 and 2100 are
non-decreasing and strictly increase (120 < 121) since 100 * 100 >= 10000. -/
theorem c5_threshold_monotone_witness :
    tpThreshold 100 2000 0 ≤ tpThreshold 100 2100 0 ∧
    tpThreshold 100 2000 0 < tpThreshold 100 2100 0 :=
  ⟨c5_threshold_monotone.1 100 0 2000 2100 (by norm_num),
   c5_threshold_monotone.2 100 0 2000 2100 (by norm_num)⟩

/-- C10: for a quoted gross amount `q >= 0` and slippage `0 <= s <= 10000`, the
`minOut = q * (10000 - s) / 10000` sent with the transaction satisfies
`0 <= minOut <= q`: the engine never demands more output than the quote it just obtained. -/
theorem c10_min_out_bounds (q s : Int) (hq : 0 ≤ q) (hs0 : 0 ≤ s) (hs1 : s ≤ 10000) :
    0 ≤ computeMinOut q s ∧ computeMinOut q s ≤ q := by
  have hnum : 0 ≤ q * (10000 - s) := by
    have : (0 : Int) ≤ 10000 - s := by omega
    positivity
  constructor
  · exact Int.tdiv_nonneg hnum (by norm_num)
  · unfold computeMinOut
    rw [Int.tdiv_eq_ediv hnum (by norm_num)]
    have hmul : q * (10000 - s) ≤ q * 10000 := by nlinarith
    calc q * (10000 - s) / 10000 ≤ q * 10000 / 10000 := Int.ediv_le_ediv (by norm_num) hmul
      _ = q := Int.mul_ediv_cancel q (by norm_num)

/-- C10 witness: a 3% slippage tolerance on a quote of 100 yields `minOut = 97`. -/
theorem c10_min_out_bounds_witness :
    0 ≤ computeMinOut 100 300 ∧ computeMinOut 100 300 ≤ 100 :=
  c10_min_out_bounds 100 300 (by norm_num) (by norm_num) (by norm_num)

theorem onBuy_existing (m : Ledger) (token curve : String) (costWei blockNumber : Nat)
    (p : Position) (hm : m (keyOf token) = some p) :
    (onBuy m token curve costWei blockNumber) (keyOf token) =
      some { token := p.token, curve := curve,
             totalCostWei := p.totalCostWei + costWei,
             firstSeenBlock := min p.firstSeenBlock blockNumber } := by
  simp only [onBuy, hm]
  unfold mapSet
  rw [if_pos rfl]
  congr 1
  split <;> (simp only [Position.mk.injEq, true_and]; omega)

theorem onBuyV0_existing (m : Ledger) (token curve : String) (costWei blockNumber : Nat)
    (p : Position) (hm : m (keyOf token) = some p) :
    (onBuyV0 m token curve costWei blockNumber) (keyOf token) =
      some { p with totalCostWei := p.totalCostWei + costWei } := by
  simp only [onBuyV0, hm]
  unfold mapSet
  rw [if_pos rfl]

theorem onBuy_fresh (token curve : String) (costWei blockNumber : Nat) :
    (onBuy emptyLedger token curve costWei blockNumber) (keyOf token) =
      some { token := token, curve := curve,
             totalCostWei := costWei, firstSeenBlock := blockNumber } := by
  simp only [onBuy, emptyLedger]
  unfold mapSet
  rw [if_pos rfl]

theorem onBuyV0_fresh (token curve : String) (costWei blockNumber : Nat) :
    (onBuyV0 emptyLedger token curve costWei blockNumber) (keyOf token) =
      some { token := token, curve := curve,
             totalCostWei := costWei, firstSeenBlock := blockNumber } := by
  simp only [onBuyV0, emptyLedger]
  unfold mapSet
  rw [if_pos rfl]

theorem runBuys_from (token : String) :
    ∀ (calls : List BuyCall) (m : Ledger) (p : Position), m (keyOf token) = some p →
      ∃ p' : Position,
        (calls.foldl (fun m c => onBuy m token c.curve c.costWei c.blockNumber) m) (keyOf token)
            = some p' ∧
        p'.totalCostWei = p.totalCostWei + (calls.map BuyCall.costWei).sum ∧
        p'.firstSeenBlock = calls.foldl (fun a b => min a b.blockNumber) p.firstSeenBlock := by
  intro calls
  induction calls with
  | nil =>
      intro m p hm
      exact ⟨p, hm, by simp, rfl⟩
  | cons c rest ih =>
      intro m p hm
      obtain ⟨p', h1, h2, h3⟩ :=
        ih (onBuy m token c.curve c.costWei c.blockNumber)
          { token := p.token, curve := c.curve,
            totalCostWei := p.totalCostWei + c.costWei,
            firstSeenBlock := min p.firstSeenBlock c.blockNumber }
          (onBuy_existing m token c.curve c.costWei c.blockNumber p hm)
      refine ⟨p', by simpa using h1, ?_, by simpa using h3⟩
      simp only [List.map_cons, List.sum_cons]
      simpa [Nat.add_assoc] using h2

theorem runBuysV0_from (token : String) :
    ∀ (calls : List BuyCall) (m : Ledger) (p : Position), m (keyOf token) = some p →
      ∃ p' : Position,
        (calls.foldl (fun m c => onBuyV0 m token c.curve c.costWei c.blockNumber) m) (keyOf token)
            = some p' ∧
        p'.totalCostWei = p.totalCostWei + (calls.map BuyCall.costWei).sum ∧
        p'.firstSeenBlock = p.firstSeenBlock := by
  intro calls
  induction calls with
  | nil =>
      intro m p hm
      exact ⟨p, hm, by simp, rfl⟩
  | cons c rest ih =>
      intro m p hm
      obtain ⟨p', h1, h2, h3⟩ :=
        ih (onBuyV0 m token c.curve c.costWei c.blockNumber)
          { p with totalCostWei := p.totalCostWei + c.costWei }
          (onBuyV0_existing m token c.curve c.costWei c.blockNumber p hm)
      refine ⟨p', by simpa using h1, ?_, by simpa using h3⟩
      simp only [List.map_cons, List.sum_cons]
      simpa [Nat.add_assoc] using h2

/-- C2 counterexample: with the earlier `onBuy` variant, two entries at heights 5 then 3
leave `firstSeenBlock = 5`, not the minimum 3: the claim fails on that variant for any
sequence whose later height is smaller. -/
theorem c2_first_seen_not_min_v0 :
    runBuysV0 "t" [⟨"c", 10, 5⟩, ⟨"c", 20, 3⟩] (keyOf "t") =
      some { token := "t", curve := "c", totalCostWei := 30, firstSeenBlock := 5 } ∧
    min (5 : Nat) 3 = 3 ∧ (5 : Nat) ≠ 3 := by
  refine ⟨by decide, by decide, by decide⟩

/-- C2 amended: starting from an empty ledger, for every non-empty same-token call sequence
the refined `onBuy` leaves `totalCostWei` equal to the sum of all cost deltas and
`firstSeenBlock` equal to the minimum of all heights passed; the earlier variant
accumulates the same cost sum but keeps the first call's height (the minimum only when no
later height is smaller). -/
theorem c2_onbuy_cost_sum_and_min_height (token : String) (c : BuyCall) (rest : List BuyCall) :
    (∃ p : Position,
        runBuys token (c :: rest) (keyOf token) = some p ∧
        p.totalCostWei = c.costWei + (rest.map BuyCall.costWei).sum ∧
        p.firstSeenBlock = rest.foldl (fun a b => min a b.blockNumber) c.blockNumber) ∧
    (∃ p : Position,
        runBuysV0 token (c :: rest) (keyOf token) = some p ∧
        p.totalCostWei = c.costWei + (rest.map BuyCall.costWei).sum ∧
        p.firstSeenBlock = c.blockNumber) := by
  constructor
  · obtain ⟨p', h1, h2, h3⟩ :=
      runBuys_from token rest (onBuy emptyLedger token c.curve c.costWei c.blockNumber)
        { token := token, curve := c.curve,
          totalCostWei := c.costWei, firstSeenBlock := c.blockNumber }
        (onBuy_fresh token c.curve c.costWei c.blockNumber)
    exact ⟨p', h1, h2, h3⟩
  · obtain ⟨p', h1, h2, h3⟩ :=
      runBuysV0_from token rest (onBuyV0 emptyLedger token c.curve c.costWei c.blockNumber)
        { token := token, curve := c.curve,
          totalCostWei := c.costWei, firstSeenBlock := c.blockNumber }
        (onBuyV0_fresh token c.curve c.costWei c.blockNumber)
    exact ⟨p', h1, h2, h3⟩

/-- C3 counterexample: with the default +20% tip and a fee component of 4 wei, the bump
`x + x * 2000 / 10000` truncates to 4: the first replacement re-sends with fees equal to,
not strictly greater than, the previous attempt. -/
theorem c3_fee_bump_can_stall :
    (gradAttempt 2000 (gradInit 2000 (some 7) 4 4) 1).maxPriorityFeePerGas = 4 ∧
    (gradAttempt 2000 (gradInit 2000 (some 7) 4 4) 0).maxPriorityFeePerGas = 4 ∧
    (gradAttempt 2000 (gradInit 2000 (some 7) 4 4) 1).maxFeePerGas =
      (gradAttempt 2000 (gradInit 2000 (some 7) 4 4) 0).maxFeePerGas := by
  refine ⟨by decide, by decide, by decide⟩

/-- C3 amended: every replacement re-uses the nonce carried by the original request, and
both fee components are monotonically non-decreasing, strictly increasing whenever the
previous fee times `TIP_BPS` is at least 10000 (with the default 2000 bps, whenever the
fee is at least 5 wei). -/
theorem c3_replacement_nonce_kept_fees_monotone (tipBps : Nat) (init : TxReq) (n : Nat) :
    (gradAttempt tipBps init n).nonce = init.nonce ∧
    (gradAttempt tipBps init n).maxPriorityFeePerGas ≤
      (gradAttempt tipBps init (n + 1)).maxPriorityFeePerGas ∧
    (gradAttempt tipBps init n).maxFeePerGas ≤ (gradAttempt tipBps init (n + 1)).maxFeePerGas ∧
    (10000 ≤ (gradAttempt tipBps init n).maxPriorityFeePerGas * tipBps →
      (gradAttempt tipBps init n).maxPriorityFeePerGas <
        (gradAttempt tipBps init (n + 1)).maxPriorityFeePerGas) ∧
    (10000 ≤ (gradAttempt tipBps init n).maxFeePerGas * tipBps →
      (gradAttempt tipBps init n).maxFeePerGas <
        (gradAttempt tipBps init (n + 1)).maxFeePerGas) := by
  refine ⟨?_, ?_, ?_, ?_, ?_⟩
  · induction n with
    | zero => rfl
    | succ k ih => simpa [gradAttempt, replaceReq] using ih
  · show _ ≤ feeBump tipBps (gradAttempt tipBps init n).maxPriorityFeePerGas
    unfold feeBump
    omega
  · show _ ≤ feeBump tipBps (gradAttempt tipBps init n).maxFeePerGas
    unfold feeBump
    omega
  · intro h
    have hpos : 0 < (gradAttempt tipBps init n).maxPriorityFeePerGas * tipBps / 10000 :=
      Nat.div_pos h (by norm_num)
    show _ < feeBump tipBps (gradAttempt tipBps init n).maxPriorityFeePerGas
    unfold feeBump
    omega
  · intro h
    have hpos : 0 < (gradAttempt tipBps init n).maxFeePerGas * tipBps / 10000 :=
      Nat.div_pos h (by norm_num)
    show _ < feeBump tipBps (gradAttempt tipBps init n).maxFeePerGas
    unfold feeBump
    omega

/-- C3 witness: with tip 2000 bps and initial fee components 10, the first attempt keeps
the request's nonce and the replacement strictly raises both fees (12 to 14). -/
theorem c3_replacement_witness :
    (gradAttempt 2000 (gradInit 2000 (some 7) 10 10) 0).nonce =
      (gradInit 2000 (some 7) 10 10).nonce ∧
    (gradAttempt 2000 (gradInit 2000 (some 7) 10 10) 0).maxPriorityFeePerGas <
      (gradAttempt 2000 (gradInit 2000 (some 7) 10 10) 1).maxPriorityFeePerGas ∧
    (gradAttempt 2000 (gradInit 2000 (some 7) 10 10) 0).maxFeePerGas <
      (gradAttempt 2000 (gradInit 2000 (some 7) 10 10) 1).maxFeePerGas :=
  ⟨(c3_replacement_nonce_kept_fees_monotone 2000 (gradInit 2000 (some 7) 10 10) 0).1,
   (c3_replacement_nonce_kept_fees_monotone 2000 (gradInit 2000 (some 7) 10 10) 0).2.2.2.1
     (by decide),
   (c3_replacement_nonce_kept_fees_monotone 2000 (gradInit 2000 (some 7) 10 10) 0).2.2.2.2
     (by decide)⟩

/-- C9 counterexample: when the boolean probe succeeds with `false`, the code still consults
the progress value and reports eligible at progress 10000, so the boolean value does not
alone decide eligibility. -/
theorem c9_false_flag_consults_progress :
    canGraduate (some false) (some 10000) = (true, 10000) := by decide

/-- C9 amended: a successful `true` probe alone decides eligibility (progress never
consulted); a `false` probe behaves exactly like an unavailable probe, deferring to the
progress value, which decides eligibility iff it reaches 10000; with both unavailable the
curve is ineligible. -/
theorem c9_graduation_signal_preference :
    (∀ progress, canGraduate (some true) progress = (true, 10000)) ∧
    (∀ progress, canGraduate (some false) progress = canGraduate none progress) ∧
    (∀ bps, (canGraduate none (some bps)).1 = true ↔ 10000 ≤ bps) ∧
    canGraduate none none = (false, 0) := by
  refine ⟨fun _ => rfl, fun _ => rfl, fun bps => ?_, rfl⟩
  simp [canGraduate]

/-- C9 witness: with the boolean probe unavailable, progress 12000 is eligible. -/
theorem c9_graduation_witness : (canGraduate none (some 12000)).1 = true :=
  (c9_graduation_signal_preference.2.2.1 12000).mpr (by norm_num)

theorem mem_runOps_of_no_rel (k : List Char) :
    ∀ (ops : List GuardOp) (g : List (List Char)),
      k ∈ g → GuardOp.rel k ∉ ops → k ∈ runOps g ops := by
  intro ops
  induction ops with
  | nil => intro g hk _; exact hk
  | cons op rest ih =>
      intro g hk hno
      cases op with
      | tryAcq k' =>
          have hmem : k ∈ (tryAcquire k' g).2 := by
            unfold tryAcquire
            split
            · exact hk
            · exact List.mem_cons_of_mem _ hk
          exact ih _ hmem (fun hm => hno (List.mem_cons_of_mem _ hm))
      | rel k' =>
          have hne : k ≠ k' := by
            intro h
            exact hno (by rw [h]; exact List.mem_cons_self _ _)
          have hmem : k ∈ releaseKey k' g := (List.mem_erase_of_ne hne).mpr hk
          exact ih _ hmem (fun hm => hno (List.mem_cons_of_mem _ hm))

theorem sendSell_not_in_ensureAllowanceT (e : SellEnv) (required a : Nat) (m : Int) :
    SellEv.sendSell a m ∉ (ensureAllowanceT e required).1 := by
  unfold ensureAllowanceT
  cases h1 : e.allowanceRead with
  | error k => simp
  | ok current =>
      by_cases h2 : required ≤ current
      · simp [h2]
      · by_cases h3 : 0 < current <;>
          cases h4 : e.approve0Send <;>
          cases h5 : e.approve0Wait <;>
          cases h6 : e.approveMaxSend <;>
          cases h7 : e.approveMaxWait <;>
          simp [h2, h3]

theorem getLast?_append_singleton {α : Type} (l : List α) (a : α) :
    (l ++ [a]).getLast? = some a := by
  simp

theorem sellTryBody_shape (cfg : SellCfg) (minProfitWei : Nat) (pos : Position)
    (blockNumber : Nat) (e : SellEnv) (b : Nat)
    (hbal : e.bal = .ok b)
    (hallow : (ensureAllowanceT e b).2 = none)
    (hbal2 : e.bal2 = .ok 0) :
    sellTryBody cfg minProfitWei pos blockNumber e =
      (SellEv.acquire :: ((ensureAllowanceT e b).1 ++ [SellEv.removePos, SellEv.release]),
       none) ∨
    (sellTryBody cfg minProfitWei pos blockNumber e).1 = [] ∨
    (sellTryBody cfg minProfitWei pos blockNumber e).1 = [SellEv.removePos] := by
  have hpair : ensureAllowanceT e b = ((ensureAllowanceT e b).1, none) := Prod.ext rfl hallow
  unfold sellTryBody
  rw [hbal]
  simp only []
  by_cases hb0 : b = 0
  · refine Or.inr (Or.inr ?_)
    simp [hb0]
  · rw [if_neg hb0]
    by_cases hmh : (blockNumber : Int) - (pos.firstSeenBlock : Int) < (cfg.minHoldBlocks : Int)
    · refine Or.inr (Or.inl ?_)
      simp [hmh]
    · rw [if_neg hmh]
      cases hq : e.quote1 with
      | none =>
          refine Or.inr (Or.inl ?_)
          simp
      | some kasOut =>
          simp only []
          by_cases hq0 : kasOut = 0
          · refine Or.inr (Or.inl ?_)
            simp [hq0]
          · rw [if_neg hq0]
            cases hfe : e.feeEst with
            | none =>
                simp only []
                cases hgp : e.gasPrice with
                | error k =>
                    refine Or.inr (Or.inl ?_)
                    simp
                | ok maxFeePerGas =>
                    simp only []
                    split
                    · refine Or.inl ?_
                      rw [hpair]
                      simp only []
                      rw [hbal2]
                      simp
                    · refine Or.inr (Or.inl ?_)
                      rfl
            | some f =>
                simp only []
                split
                · refine Or.inl ?_
                  rw [hpair]
                  simp only []
                  rw [hbal2]
                  simp
                · refine Or.inr (Or.inl ?_)
                  rfl

/-- C7: the per-asset concurrency guard is exclusive and always released.  First, after a
successful `tryAcquire` of a key, any sequence of guard operations containing no `release`
of that key leaves every further `tryAcquire` of it failing.  Second, whenever an iteration
of the sell loop acquires the guard, its event trace ends with the `finally` release, on
every exit path: normal completion, early `continue`, or a thrown error. -/
theorem c7_guard_exclusive_and_always_released :
    (∀ (g : List (List Char)) (ops : List GuardOp) (k : List Char),
        (tryAcquire k g).1 = true → GuardOp.rel k ∉ ops →
        (tryAcquire k (runOps (tryAcquire k g).2 ops)).1 = false) ∧
    (∀ (cfg : SellCfg) (minProfitWei : Nat) (pos : Position) (blockNumber : Nat) (e : SellEnv),
        SellEv.acquire ∈ sellIterTrace cfg minProfitWei pos blockNumber e →
        (sellIterTrace cfg minProfitWei pos blockNumber e).getLast? = some SellEv.release) := by
  constructor
  · intro g ops k hacq hno
    have hk : k ∉ g := by
      by_contra h
      unfold tryAcquire at hacq
      rw [if_pos h] at hacq
      exact Bool.false_ne_true hacq
    have h2 : (tryAcquire k g).2 = k :: g := by
      unfold tryAcquire
      rw [if_neg hk]
    generalize hgen : runOps (tryAcquire k g).2 ops = s
    have hmem : k ∈ s := by
      rw [← hgen, h2]
      exact mem_runOps_of_no_rel k ops _ (List.mem_cons_self k g) hno
    unfold tryAcquire
    rw [if_pos hmem]
  · intro cfg minProfitWei pos blockNumber e hmem
    unfold sellIterTrace
    by_cases hf : e.inFlightHas
    · unfold sellIterTrace at hmem
      rw [if_pos hf] at hmem
      exact absurd hmem (List.not_mem_nil _)
    · rw [if_neg hf]
      rcases h : sellTryBody cfg minProfitWei pos blockNumber e with ⟨evs, err⟩
      cases err with
      | none => simp
      | some k => simp

/-- C7 witness: a fresh key is acquired once and cannot be acquired again before release,
and the sample iteration that acquires the guard ends its trace with the release. -/
theorem c7_guard_witness :
    (tryAcquire ['a'] (runOps (tryAcquire ['a'] []).2 [])).1 = false ∧
    (sellIterTrace cfgSample 0 posSample 5 envSample).getLast? = some SellEv.release :=
  ⟨c7_guard_exclusive_and_always_released.1 [] [] ['a'] (by decide) (by decide),
   c7_guard_exclusive_and_always_released.2 cfgSample 0 posSample 5 envSample (by decide)⟩

/-- C6: `ensureAllowance` issues no transaction when the current authorization covers the
requirement, and with a non-zero insufficient authorization (and confirming approvals) it
issues exactly a zero-reset, waits for its receipt, then the maximal approval, waits for
its receipt, in that order, and only then returns. -/
theorem c6_ensure_allowance (e : SellEnv) (required current : Nat)
    (hread : e.allowanceRead = .ok current) :
    (required ≤ current → ensureAllowanceT e required = ([], none)) ∧
    (current < required → 0 < current →
      e.approve0Send = .ok () → e.approve0Wait = .ok () →
      e.approveMaxSend = .ok () → e.approveMaxWait = .ok () →
      ensureAllowanceT e required =
        ([SellEv.approveEv 0, SellEv.waitRcpt, SellEv.approveEv MAX_UINT256, SellEv.waitRcpt],
         none)) := by
  constructor
  · intro h
    unfold ensureAllowanceT
    rw [hread]
    simp [h]
  · intro h1 h2 h3 h4 h5 h6
    unfold ensureAllowanceT
    rw [hread]
    simp [Nat.not_le.mpr h1, h2, h3, h4, h5, h6]

/-- C6 witness: with current allowance 50 and requirement 80, exactly the zero-reset and
max approval are issued, each awaited, in order; with requirement 30 nothing is issued. -/
theorem c6_ensure_allowance_witness :
    ensureAllowanceT envSampleAllow 80 =
      ([SellEv.approveEv 0, SellEv.waitRcpt, SellEv.approveEv MAX_UINT256, SellEv.waitRcpt],
       none) ∧
    ensureAllowanceT envSampleAllow 30 = ([], none) :=
  ⟨(c6_ensure_allowance envSampleAllow 80 50 rfl).2 (by norm_num) (by norm_num) rfl rfl rfl rfl,
   (c6_ensure_allowance envSampleAllow 30 50 rfl).1 (by norm_num)⟩

/-- C8: when an iteration's guard is acquired, its allowance step raises no error, and the
balance re-read immediately before the sell send returns zero, the iteration removes the
position and releases the guard without ever emitting a sell send. -/
theorem c8_zero_balance_reread_aborts
    (cfg : SellCfg) (minProfitWei : Nat) (pos : Position) (blockNumber : Nat) (e : SellEnv)
    (b : Nat)
    (hskip : e.inFlightHas = false)
    (hbal : e.bal = .ok b)
    (hallow : (ensureAllowanceT e b).2 = none)
    (hbal2 : e.bal2 = .ok 0)
    (hacq : SellEv.acquire ∈ (sellTryBody cfg minProfitWei pos blockNumber e).1) :
    (∀ a m, SellEv.sendSell a m ∉ sellIterTrace cfg minProfitWei pos blockNumber e) ∧
    SellEv.removePos ∈ sellIterTrace cfg minProfitWei pos blockNumber e ∧
    (sellIterTrace cfg minProfitWei pos blockNumber e).getLast? = some SellEv.release := by
  rcases sellTryBody_shape cfg minProfitWei pos blockNumber e b hbal hallow hbal2 with
    hbody | hnil | hrem
  · have hiter : sellIterTrace cfg minProfitWei pos blockNumber e =
        (SellEv.acquire :: ((ensureAllowanceT e b).1 ++ [SellEv.removePos, SellEv.release])) ++
          [SellEv.release] := by
      unfold sellIterTrace
      rw [if_neg (by simp [hskip]), hbody]
    refine ⟨?_, ?_, ?_⟩
    · intro a m
      rw [hiter]
      simp [sendSell_not_in_ensureAllowanceT]
    · rw [hiter]
      simp
    · rw [hiter]
      exact getLast?_append_singleton _ _
  · rw [hnil] at hacq
    exact absurd hacq (List.not_mem_nil _)
  · rw [hrem] at hacq
    simp at hacq

/-- C8 witness: in the sample environment whose pre-send balance re-read is zero, the trace
contains the removal and ends with the guard release, and no sell send occurs. -/
theorem c8_zero_balance_witness :
    (∀ a m, SellEv.sendSell a m ∉ sellIterTrace cfgSample 0 posSample 5 envSampleZero) ∧
    SellEv.removePos ∈ sellIterTrace cfgSample 0 posSample 5 envSampleZero ∧
    (sellIterTrace cfgSample 0 posSample 5 envSampleZero).getLast? = some SellEv.release :=
  c8_zero_balance_reread_aborts cfgSample 0 posSample 5 envSampleZero 10
    rfl rfl (by decide) rfl (by decide)

end FomoSniper
